import Mathlib

/-!
Verification of the SSI serial-protocol core (`src/lib.rs`): checksum engine,
enumeration tables, frame decoder and frame encoder, shallowly embedded in
Lean.  Bytes are modelled as `Nat` (with explicit `< 256` bounds where a
property depends on them), 16-bit wrapping arithmetic as `% 65536`, the signed
big-endian checksum interpretation as explicit `Int` arithmetic, fallible
operations as `Option`/`Except`, and the `unreachable!` abort in the `Source`
conversion as `Option.none` threaded through `decode`.
-/

namespace Ssi

/-- Status flag bits, mirroring the `bitflags!` block: `Retransmit = 1`,
`Continuation = 1 << 1`, `ChangeType = 1 << 3`. -/
def Status.Retransmit : Nat := 1

def Status.Continuation : Nat := 1 <<< 1

def Status.ChangeType : Nat := 1 <<< 3

/-- The mask of all defined status bits, as `bitflags` computes it. -/
def Status.allBits : Nat := Status.Retransmit ||| Status.Continuation ||| Status.ChangeType

/-- `Status::from_bits_truncate`: keep the defined bits, drop all others. -/
def Status.fromBitsTruncate (b : Nat) : Nat := b &&& Status.allBits

/-- `enum DecodeError`. -/
inductive DecodeError where
  | InvalidChecksum
  | InvalidMessageLength
deriving DecidableEq

/-- `enum OpCode`. -/
inductive OpCode where
  | Ack
  | Nack
  | DecodeData
  | Other (val : Nat)
deriving DecidableEq

/-- `impl From<&u8> for OpCode`. -/
def OpCode.ofByte (val : Nat) : OpCode :=
  if val = 0xd0 then .Ack
  else if val = 0xd1 then .Nack
  else if val = 0xf3 then .DecodeData
  else .Other val

/-- `impl From<OpCode> for u8`. -/
def OpCode.toByte : OpCode → Nat
  | .Ack => 0xd0
  | .Nack => 0xd1
  | .DecodeData => 0xf3
  | .Other val => val

/-- `enum Source`. -/
inductive Source where
  | Scanner
  | Host
deriving DecidableEq

/-- `impl From<&u8> for Source`; the `unreachable!()` arm is modelled as
`none` (an abort with no defined result). -/
def Source.ofByte (val : Nat) : Option Source :=
  if val = 0x00 then some .Scanner
  else if val = 0x04 then some .Host
  else none

/-- `impl From<Source> for u8`. -/
def Source.toByte : Source → Nat
  | .Scanner => 0x00
  | .Host => 0x04

/-- `struct RawMessage`; `status` keeps the raw (truncated) bit pattern. -/
structure RawMessage where
  length : Nat
  opcode : OpCode
  source : Source
  status : Nat
  data : List Nat
deriving DecidableEq

/-- `enum ContentType` (variants in source order). -/
inductive ContentType where
  | Aztec
  | AztecRune
  | Bookland
  | Chinese2of5
  | Codabar
  | Code11
  | Code128
  | Code16K
  | Code32
  | Code39
  | Code39Ascii
  | Code49
  | Code93
  | Coupon
  | CueCat
  | Discrete2of5
  | DataMatrix
  | Dotcode
  | Ean13
  | Ean13Plus2
  | Ean13Plus5
  | Ean8
  | Ean8Plus2
  | Ean8Plus5
  | FrenchLottery
  | GridMatrix
  | Gs1_128
  | Gs1DataBarExpanded
  | Gs1DataBarLimited
  | Gs1DataBar14
  | Gs1DataMatrix
  | Gs1Qr
  | HanXin
  | Iata
  | Isbt128
  | Isbt128Concat
  | Issn
  | Interleaved2of5
  | Korean3of5
  | MacroMicroPdf
  | MacroPdf417
  | MacroQr
  | Mailmark
  | Matrix2of5
  | Maxicode
  | MicroPdf
  | MicroPdfCca
  | MicroQr
  | Msi
  | Multicode
  | Multipacket
  | Nw7
  | OcrB
  | Pdf417
  | PlanetUs
  | PostalAus
  | PostalNl
  | PostalJp
  | PostalUk
  | PostbarCa
  | PostnetUs
  | Qr
  | RfidRaw
  | RfidURI
  | RssExpandedCoupon
  | ScanletWebcode
  | Signature
  | Telepen
  | Tlc39
  | Trioptic
  | UdiParsed
  | UpcA
  | UpcAPlus2
  | UpcAPlus5
  | UpcE
  | UpcEPlus2
  | UpcEPlus5
  | UpcE1
  | UpcE1Plus2
  | UpcE1Plus5
  | UkPlessy
  | FourStateUs
  | FourStateUs4
deriving DecidableEq, Fintype

/-- The `#[repr(u8)]` discriminant declared for each `ContentType` variant. -/
def ContentType.code : ContentType → Nat
  | .Aztec => 0x2d
  | .AztecRune => 0x2e
  | .Bookland => 0x16
  | .Chinese2of5 => 0x72
  | .Codabar => 0x02
  | .Code11 => 0x0c
  | .Code128 => 0x03
  | .Code16K => 0x12
  | .Code32 => 0x20
  | .Code39 => 0x01
  | .Code39Ascii => 0x13
  | .Code49 => 0x0d
  | .Code93 => 0x07
  | .Coupon => 0x17
  | .CueCat => 0x38
  | .Discrete2of5 => 0x04
  | .DataMatrix => 0x1b
  | .Dotcode => 0xc4
  | .Ean13 => 0x0b
  | .Ean13Plus2 => 0x4b
  | .Ean13Plus5 => 0x8b
  | .Ean8 => 0x0a
  | .Ean8Plus2 => 0x4a
  | .Ean8Plus5 => 0x8a
  | .FrenchLottery => 0x2f
  | .GridMatrix => 0xc8
  | .Gs1_128 => 0x0f
  | .Gs1DataBarExpanded => 0x32
  | .Gs1DataBarLimited => 0x31
  | .Gs1DataBar14 => 0x30
  | .Gs1DataMatrix => 0xc1
  | .Gs1Qr => 0xc2
  | .HanXin => 0xb7
  | .Iata => 0x05
  | .Isbt128 => 0x19
  | .Isbt128Concat => 0x21
  | .Issn => 0x36
  | .Interleaved2of5 => 0x06
  | .Korean3of5 => 0x73
  | .MacroMicroPdf => 0x9a
  | .MacroPdf417 => 0x28
  | .MacroQr => 0x29
  | .Mailmark => 0xc3
  | .Matrix2of5 => 0x39
  | .Maxicode => 0x25
  | .MicroPdf => 0x1a
  | .MicroPdfCca => 0x1d
  | .MicroQr => 0x2c
  | .Msi => 0x0e
  | .Multicode => 0xc6
  | .Multipacket => 0x99
  | .Nw7 => 0x18
  | .OcrB => 0xa0
  | .Pdf417 => 0x11
  | .PlanetUs => 0x1f
  | .PostalAus => 0x23
  | .PostalNl => 0x24
  | .PostalJp => 0x22
  | .PostalUk => 0x27
  | .PostbarCa => 0x26
  | .PostnetUs => 0x1e
  | .Qr => 0x1c
  | .RfidRaw => 0xe0
  | .RfidURI => 0xe1
  | .RssExpandedCoupon => 0xb4
  | .ScanletWebcode => 0x37
  | .Signature => 0x69
  | .Telepen => 0xca
  | .Tlc39 => 0x5a
  | .Trioptic => 0x15
  | .UdiParsed => 0xcc
  | .UpcA => 0x08
  | .UpcAPlus2 => 0x48
  | .UpcAPlus5 => 0x88
  | .UpcE => 0x09
  | .UpcEPlus2 => 0x49
  | .UpcEPlus5 => 0x89
  | .UpcE1 => 0x10
  | .UpcE1Plus2 => 0x50
  | .UpcE1Plus5 => 0x90
  | .UkPlessy => 0xc7
  | .FourStateUs => 0x34
  | .FourStateUs4 => 0x35

/-- `impl TryFrom<u8> for ContentType` (arms in source order). -/
def ContentType.tryFrom (val : Nat) : Except String ContentType :=
  if val = 0x01 then .ok .Code39
  else if val = 0x02 then .ok .Codabar
  else if val = 0x03 then .ok .Code128
  else if val = 0x04 then .ok .Discrete2of5
  else if val = 0x05 then .ok .Iata
  else if val = 0x06 then .ok .Interleaved2of5
  else if val = 0x07 then .ok .Code93
  else if val = 0x08 then .ok .UpcA
  else if val = 0x09 then .ok .UpcE
  else if val = 0x0a then .ok .Ean8
  else if val = 0x0b then .ok .Ean13
  else if val = 0x0c then .ok .Code11
  else if val = 0x0d then .ok .Code49
  else if val = 0x0e then .ok .Msi
  else if val = 0x0f then .ok .Gs1_128
  else if val = 0x10 then .ok .UpcE1
  else if val = 0x11 then .ok .Pdf417
  else if val = 0x12 then .ok .Code16K
  else if val = 0x13 then .ok .Code39Ascii
  else if val = 0x15 then .ok .Trioptic
  else if val = 0x16 then .ok .Bookland
  else if val = 0x17 then .ok .Coupon
  else if val = 0x18 then .ok .Nw7
  else if val = 0x19 then .ok .Isbt128
  else if val = 0x1a then .ok .MicroPdf
  else if val = 0x1b then .ok .DataMatrix
  else if val = 0x1c then .ok .Qr
  else if val = 0x1d then .ok .MicroPdfCca
  else if val = 0x1e then .ok .PostnetUs
  else if val = 0x1f then .ok .PlanetUs
  else if val = 0x20 then .ok .Code32
  else if val = 0x21 then .ok .Isbt128Concat
  else if val = 0x22 then .ok .PostalJp
  else if val = 0x23 then .ok .PostalAus
  else if val = 0x24 then .ok .PostalNl
  else if val = 0x25 then .ok .Maxicode
  else if val = 0x26 then .ok .PostbarCa
  else if val = 0x27 then .ok .PostalUk
  else if val = 0x28 then .ok .MacroPdf417
  else if val = 0x29 then .ok .MacroQr
  else if val = 0x2c then .ok .MicroQr
  else if val = 0x2d then .ok .Aztec
  else if val = 0x2e then .ok .AztecRune
  else if val = 0x2f then .ok .FrenchLottery
  else if val = 0x30 then .ok .Gs1DataBar14
  else if val = 0x31 then .ok .Gs1DataBarLimited
  else if val = 0x32 then .ok .Gs1DataBarExpanded
  else if val = 0x34 then .ok .FourStateUs
  else if val = 0x35 then .ok .FourStateUs4
  else if val = 0x36 then .ok .Issn
  else if val = 0x37 then .ok .ScanletWebcode
  else if val = 0x38 then .ok .CueCat
  else if val = 0x48 then .ok .UpcAPlus2
  else if val = 0x49 then .ok .UpcEPlus2
  else if val = 0x4a then .ok .Ean8Plus2
  else if val = 0x4b then .ok .Ean13Plus2
  else if val = 0x50 then .ok .UpcE1Plus2
  else if val = 0x5a then .ok .Tlc39
  else if val = 0x69 then .ok .Signature
  else if val = 0x71 then .ok .Matrix2of5
  else if val = 0x72 then .ok .Chinese2of5
  else if val = 0x73 then .ok .Korean3of5
  else if val = 0x88 then .ok .UpcAPlus5
  else if val = 0x89 then .ok .UpcEPlus5
  else if val = 0x8a then .ok .Ean8Plus5
  else if val = 0x8b then .ok .Ean13Plus5
  else if val = 0x90 then .ok .UpcE1Plus5
  else if val = 0x99 then .ok .Multipacket
  else if val = 0x9a then .ok .MacroMicroPdf
  else if val = 0xa0 then .ok .OcrB
  else if val = 0xb4 then .ok .RssExpandedCoupon
  else if val = 0xb7 then .ok .HanXin
  else if val = 0xc1 then .ok .Gs1DataMatrix
  else if val = 0xc2 then .ok .Gs1Qr
  else if val = 0xc3 then .ok .Mailmark
  else if val = 0xc4 then .ok .Dotcode
  else if val = 0xc6 then .ok .Multicode
  else if val = 0xc7 then .ok .UkPlessy
  else if val = 0xc8 then .ok .GridMatrix
  else if val = 0xca then .ok .Telepen
  else if val = 0xcc then .ok .UdiParsed
  else if val = 0xe0 then .ok .RfidRaw
  else if val = 0xe1 then .ok .RfidURI
  else .error "Unknown content type"

/-- `fn calc_checksum`: 16-bit wrapping sum of the size byte and every
payload byte. -/
def calc_checksum (size : Nat) (payload : List Nat) : Nat :=
  (size + payload.sum) % 65536

/-- `i16::from_be_bytes([c1, c2])`: the two bytes as a big-endian signed
16-bit integer. -/
def i16_of_be (c1 c2 : Nat) : Int :=
  let r := (c1 * 256 + c2) % 65536
  if r < 32768 then (r : Int) else (r : Int) - 65536

/-- `-x as u16` for a signed 16-bit `x`: wrapping negation reinterpreted as
unsigned 16-bit. -/
def neg_as_u16 (x : Int) : Nat := ((-x) % 65536).toNat

/-- `checksum as i16`: reinterpret an unsigned 16-bit value as signed. -/
def u16_as_i16 (n : Nat) : Int :=
  if n % 65536 < 32768 then ((n % 65536 : Nat) : Int)
  else ((n % 65536 : Nat) : Int) - 65536

/-- `i16::to_be_bytes` of a signed 16-bit value: the two big-endian bytes of
its unsigned 16-bit reinterpretation. -/
def i16_to_be_bytes (x : Int) : List Nat :=
  [(x % 65536).toNat / 256, (x % 65536).toNat % 256]

/-- Split a list into its last two elements and the part before them
(the `payload @ .., checksum1, checksum2` part of the slice pattern). -/
def splitLast2 : List Nat → Option (List Nat × Nat × Nat)
  | [] => none
  | [_] => none
  | [c1, c2] => some ([], c1, c2)
  | a :: b :: c :: rest =>
    match splitLast2 (b :: c :: rest) with
    | some (p, c1, c2) => some (a :: p, c1, c2)
    | none => none

/-- The slice pattern `[length, payload @ .., checksum1, checksum2]`:
succeeds exactly on buffers of at least three bytes. -/
def splitFrame (message : List Nat) : Option (Nat × List Nat × Nat × Nat) :=
  match message with
  | [] => none
  | length :: rest =>
    match splitLast2 rest with
    | some (p, c1, c2) => some (length, p, c1, c2)
    | none => none

/-- `fn decode`.  `none` models the `unreachable!()` panic reached through
the `Source` conversion; `some (Except.error e)` models `Err(e)`. -/
def decode (message : List Nat) : Option (Except DecodeError RawMessage) :=
  match splitFrame message with
  | none => some (Except.error DecodeError.InvalidMessageLength)
  | some (length, payload, checksum1, checksum2) =>
    let checksum := neg_as_u16 (i16_of_be checksum1 checksum2)
    let sum := calc_checksum length payload
    if sum ≠ checksum then some (Except.error DecodeError.InvalidChecksum)
    else
      match payload with
      | opcode :: source :: status :: data =>
        match Source.ofByte source with
        | none => none
        | some src =>
          some (Except.ok
            { length := length
              opcode := OpCode.ofByte opcode
              source := src
              status := Status.fromBitsTruncate status
              data := data })
      | _ => some (Except.error DecodeError.InvalidMessageLength)

/-- `fn wrap`: prepend the size byte (which counts itself; the `as u8` cast
and `u8` addition wrap modulo 256) and append the big-endian bytes of the
negated checksum. -/
def wrap (data : List Nat) : List Nat :=
  let size := (data.length + 1) % 256
  let checksum := calc_checksum size data
  size :: data ++ i16_to_be_bytes (-(u16_as_i16 checksum))

end Ssi

deriving instance DecidableEq for Except

namespace Ssi

/-! ### Numeric helper lemmas -/

theorem neg_as_u16_i16_of_be (c1 c2 : Nat) (h1 : c1 < 256) (h2 : c2 < 256) :
    neg_as_u16 (i16_of_be c1 c2) = (65536 - (c1 * 256 + c2)) % 65536 := by
  simp only [neg_as_u16, i16_of_be]
  have hr : (c1 * 256 + c2) % 65536 = c1 * 256 + c2 := Nat.mod_eq_of_lt (by omega)
  rw [hr]
  split <;> omega

theorem neg_u16_as_i16_mod (ck : Nat) (h : ck < 65536) :
    ((-(u16_as_i16 ck)) % 65536).toNat = (65536 - ck) % 65536 := by
  unfold u16_as_i16
  rw [Nat.mod_eq_of_lt h]
  split <;> omega

theorem i16_to_be_bytes_neg (ck : Nat) (h : ck < 65536) :
    i16_to_be_bytes (-(u16_as_i16 ck)) =
      [((65536 - ck) % 65536) / 256, ((65536 - ck) % 65536) % 256] := by
  unfold i16_to_be_bytes
  rw [neg_u16_as_i16_mod ck h]

theorem calc_checksum_lt (size : Nat) (payload : List Nat) :
    calc_checksum size payload < 65536 :=
  Nat.mod_lt _ (by omega)

/-! ### Structural lemmas about the frame split -/

theorem splitLast2_append (p : List Nat) (c1 c2 : Nat) :
    splitLast2 (p ++ [c1, c2]) = some (p, c1, c2) := by
  match p with
  | [] => rfl
  | [a] => rfl
  | a :: b :: t =>
    have ih := splitLast2_append (b :: t) c1 c2
    have step : splitLast2 ((a :: b :: t) ++ [c1, c2]) =
        match splitLast2 ((b :: t) ++ [c1, c2]) with
        | some (q, d1, d2) => some (a :: q, d1, d2)
        | none => none := by
      cases t <;> rfl
    rw [step, ih]

theorem splitLast2_eq_some :
    ∀ (r : List Nat) {p : List Nat} {c1 c2 : Nat},
      splitLast2 r = some (p, c1, c2) → r = p ++ [c1, c2]
  | [], _, _, _, h => by simp [splitLast2] at h
  | [_], _, _, _, h => by simp [splitLast2] at h
  | [a, b], p, c1, c2, h => by
    simp only [splitLast2, Option.some.injEq, Prod.mk.injEq] at h
    obtain ⟨h1, h2, h3⟩ := h
    subst h1 h2 h3
    rfl
  | a :: b :: c :: rest, p, c1, c2, h => by
    rw [splitLast2] at h
    cases hs : splitLast2 (b :: c :: rest) with
    | none => rw [hs] at h; simp at h
    | some t =>
      obtain ⟨p', c1', c2'⟩ := t
      rw [hs] at h
      simp only [Option.some.injEq, Prod.mk.injEq] at h
      obtain ⟨h1, h2, h3⟩ := h
      subst h2 h3
      have := splitLast2_eq_some (b :: c :: rest) hs
      rw [← h1, this]
      rfl

theorem splitFrame_cons_append (l : Nat) (p : List Nat) (c1 c2 : Nat) :
    splitFrame (l :: (p ++ [c1, c2])) = some (l, p, c1, c2) := by
  simp [splitFrame, splitLast2_append]

theorem splitFrame_eq_some {m : List Nat} {l : Nat} {p : List Nat} {c1 c2 : Nat}
    (h : splitFrame m = some (l, p, c1, c2)) : m = l :: (p ++ [c1, c2]) := by
  match m with
  | [] => simp [splitFrame] at h
  | length :: rest =>
    simp only [splitFrame] at h
    cases hs : splitLast2 rest with
    | none => rw [hs] at h; simp at h
    | some t =>
      obtain ⟨p', c1', c2'⟩ := t
      rw [hs] at h
      simp only [Option.some.injEq, Prod.mk.injEq] at h
      obtain ⟨h1, h2, h3, h4⟩ := h
      subst h1 h3 h4
      rw [← h2, splitLast2_eq_some rest hs]

/-- Evaluation of `decode` on an explicitly decomposed buffer. -/
theorem decode_cons_append (l : Nat) (p : List Nat) (c1 c2 : Nat) :
    decode (l :: (p ++ [c1, c2])) =
      (if calc_checksum l p ≠ neg_as_u16 (i16_of_be c1 c2) then
        some (Except.error DecodeError.InvalidChecksum)
      else
        match p with
        | opcode :: source :: status :: data =>
          match Source.ofByte source with
          | none => none
          | some src =>
            some (Except.ok
              { length := l
                opcode := OpCode.ofByte opcode
                source := src
                status := Status.fromBitsTruncate status
                data := data })
        | _ => some (Except.error DecodeError.InvalidMessageLength)) := by
  unfold decode
  rw [splitFrame_cons_append]

/-- `decode` and a checksum mismatch: the checksum test is the first check
after the structural split. -/
theorem decode_mismatch (l : Nat) (p : List Nat) (c1 c2 : Nat)
    (h : calc_checksum l p ≠ neg_as_u16 (i16_of_be c1 c2)) :
    decode (l :: (p ++ [c1, c2])) = some (Except.error DecodeError.InvalidChecksum) := by
  rw [decode_cons_append, if_pos h]

/-- `decode` on a frame with a matching checksum and a full header. -/
theorem decode_ok_intro (l op src st : Nat) (data : List Nat) (c1 c2 : Nat) (s : Source)
    (hsrc : Source.ofByte src = some s)
    (hck : calc_checksum l (op :: src :: st :: data) = neg_as_u16 (i16_of_be c1 c2)) :
    decode (l :: ((op :: src :: st :: data) ++ [c1, c2])) =
      some (Except.ok
        { length := l
          opcode := OpCode.ofByte op
          source := s
          status := Status.fromBitsTruncate st
          data := data }) := by
  simp only [decode, splitFrame_cons_append, hck, ne_eq, not_true_eq_false, if_false, hsrc]

/-- Inversion: everything `decode` accepts has the expected shape. -/
theorem decode_ok_elim {m : List Nat} {fr : RawMessage}
    (h : decode m = some (Except.ok fr)) :
    ∃ l op src st data c1 c2 s,
      m = l :: ((op :: src :: st :: data) ++ [c1, c2]) ∧
      Source.ofByte src = some s ∧
      calc_checksum l (op :: src :: st :: data) = neg_as_u16 (i16_of_be c1 c2) ∧
      fr = { length := l
             opcode := OpCode.ofByte op
             source := s
             status := Status.fromBitsTruncate st
             data := data } := by
  cases hsf : splitFrame m with
  | none =>
    unfold decode at h
    rw [hsf] at h
    simp at h
  | some t =>
    obtain ⟨l, p, c1, c2⟩ := t
    have hm := splitFrame_eq_some hsf
    subst hm
    simp only [decode, splitFrame_cons_append] at h
    by_cases hne : calc_checksum l p ≠ neg_as_u16 (i16_of_be c1 c2)
    · rw [if_pos hne] at h
      simp at h
    · rw [if_neg hne] at h
      push_neg at hne
      match p with
      | [] => simp at h
      | [a] => simp at h
      | [a, b] => simp at h
      | op :: src :: st :: data =>
        cases hsrc : Source.ofByte src with
        | none => simp only [hsrc] at h; exact absurd h (by simp)
        | some s =>
          simp only [hsrc, Option.some.injEq, Except.ok.injEq] at h
          exact ⟨l, op, src, st, data, c1, c2, s, rfl, hsrc, hne, h.symm⟩

/-! ### List helper lemmas -/

theorem sum_set_add (l : List Nat) (i b : Nat) (h : i < l.length) :
    (l.set i b).sum + l.getD i 0 = l.sum + b := by
  induction l generalizing i with
  | nil => simp at h
  | cons a t ih =>
    cases i with
    | zero => simp [List.set, List.getD]; omega
    | succ j =>
      have hj : j < t.length := by simpa using h
      have := ih j hj
      simp only [List.set, List.sum_cons, List.getD_cons_succ]
      omega

theorem set_append_left (u v : List Nat) (i b : Nat) (h : i < u.length) :
    (u ++ v).set i b = u.set i b ++ v := by
  induction u generalizing i with
  | nil => simp at h
  | cons a t ih =>
    cases i with
    | zero => simp [List.set]
    | succ j =>
      have hj : j < t.length := by simpa using h
      simp [List.set, ih j hj]

/-! ### Further `decode` evaluation lemmas -/

/-- With a matching checksum but fewer than three payload bytes, `decode`
fails on the second split. -/
theorem decode_short (l : Nat) (p : List Nat) (c1 c2 : Nat)
    (hck : calc_checksum l p = neg_as_u16 (i16_of_be c1 c2)) (hp : p.length < 3) :
    decode (l :: (p ++ [c1, c2])) = some (Except.error DecodeError.InvalidMessageLength) := by
  match p with
  | [] => simp only [decode, splitFrame_cons_append, hck, ne_eq, not_true_eq_false, if_false]
  | [a] => simp only [decode, splitFrame_cons_append, hck, ne_eq, not_true_eq_false, if_false]
  | [a, b] => simp only [decode, splitFrame_cons_append, hck, ne_eq, not_true_eq_false, if_false]
  | a :: b :: c :: t => simp at hp; omega

/-- With a matching checksum, a full header, and a source byte outside the
table, `decode` reaches the `unreachable!()` (modelled as `none`). -/
theorem decode_none_src (l op src st : Nat) (data : List Nat) (c1 c2 : Nat)
    (hck : calc_checksum l (op :: src :: st :: data) = neg_as_u16 (i16_of_be c1 c2))
    (hsrc : Source.ofByte src = none) :
    decode (l :: ((op :: src :: st :: data) ++ [c1, c2])) = none := by
  simp only [decode, splitFrame_cons_append, hck, ne_eq, not_true_eq_false, if_false, hsrc]

/-! ### Round-trip arithmetic for `wrap` -/

theorem wrap_eq (data : List Nat) :
    wrap data = ((data.length + 1) % 256) :: data ++
      [((65536 - calc_checksum ((data.length + 1) % 256) data) % 65536) / 256,
       ((65536 - calc_checksum ((data.length + 1) % 256) data) % 65536) % 256] := by
  simp only [wrap, i16_to_be_bytes_neg _ (calc_checksum_lt _ _)]

/-- Reading back the two big-endian bytes of the negated checksum and
negating again recovers the checksum. -/
theorem neg_roundtrip (ck : Nat) (h : ck < 65536) :
    neg_as_u16 (i16_of_be ((65536 - ck) % 65536 / 256) ((65536 - ck) % 65536 % 256)) = ck := by
  have h1 : (65536 - ck) % 65536 / 256 < 256 := by omega
  have h2 : (65536 - ck) % 65536 % 256 < 256 := by omega
  rw [neg_as_u16_i16_of_be _ _ h1 h2]
  omega

/-- `decode` after `wrap` on a full header whose size byte does not wrap. -/
theorem decode_wrap (op src st : Nat) (rest : List Nat) (s : Source)
    (hsrc : Source.ofByte src = some s) (hlen : rest.length ≤ 250) :
    decode (wrap (op :: src :: st :: rest)) =
      some (Except.ok
        { length := rest.length + 4
          opcode := OpCode.ofByte op
          source := s
          status := Status.fromBitsTruncate st
          data := rest }) := by
  have hsize : ((op :: src :: st :: rest).length + 1) % 256 = rest.length + 4 := by
    have hL : (op :: src :: st :: rest).length = rest.length + 3 := by simp
    rw [hL]
    omega
  rw [wrap_eq, hsize]
  exact decode_ok_intro _ op src st rest _ _ s hsrc
    (by rw [neg_roundtrip _ (calc_checksum_lt _ _)])

/-! ### Claim theorems -/

/-- C7: The byte-to-OpCode mapping is total: 0xd0 maps to Ack, 0xd1 to Nack,
0xf3 to DecodeData and every other byte to Other(byte), and for every byte
the byte-to-OpCode-to-byte round trip is the identity, including Other. -/
theorem opcode_total_roundtrip :
    OpCode.ofByte 0xd0 = OpCode.Ack ∧
    OpCode.ofByte 0xd1 = OpCode.Nack ∧
    OpCode.ofByte 0xf3 = OpCode.DecodeData ∧
    (∀ b : Nat, b ≠ 0xd0 → b ≠ 0xd1 → b ≠ 0xf3 → OpCode.ofByte b = OpCode.Other b) ∧
    (∀ b : Nat, OpCode.toByte (OpCode.ofByte b) = b) := by
  refine ⟨rfl, rfl, rfl, ?_, ?_⟩
  · intro b h0 h1 h3
    simp [OpCode.ofByte, h0, h1, h3]
  · intro b
    by_cases h0 : b = 0xd0
    · subst h0; rfl
    by_cases h1 : b = 0xd1
    · subst h1; rfl
    by_cases h3 : b = 0xf3
    · subst h3; rfl
    simp [OpCode.ofByte, OpCode.toByte, h0, h1, h3]

/-- Witness for C7 at the byte 0x2a. -/
theorem opcode_total_roundtrip_witness :
    OpCode.ofByte 0x2a = OpCode.Other 0x2a ∧
    OpCode.toByte (OpCode.ofByte 0x2a) = 0x2a :=
  ⟨opcode_total_roundtrip.2.2.2.1 0x2a (by decide) (by decide) (by decide),
   opcode_total_roundtrip.2.2.2.2 0x2a⟩

/-- C5: The byte-to-Source mapping is partial over exactly
{0x00 ↦ Scanner, 0x04 ↦ Host}, the Source-to-byte mapping is its exact
inverse, and whenever the source byte (offset 2 of the buffer) is 0x00 or
0x04, `decode` never reaches the `unreachable!()` abort (modelled as
`none`); for any other source byte the mapping has no defined result. -/
theorem source_mapping_no_abort :
    (∀ b : Nat, Source.ofByte b = some Source.Scanner ↔ b = 0x00) ∧
    (∀ b : Nat, Source.ofByte b = some Source.Host ↔ b = 0x04) ∧
    (∀ b : Nat, b ≠ 0x00 → b ≠ 0x04 → Source.ofByte b = none) ∧
    Source.toByte Source.Scanner = 0x00 ∧
    Source.toByte Source.Host = 0x04 ∧
    (∀ s : Source, Source.ofByte (Source.toByte s) = some s) ∧
    (∀ m : List Nat, m.getD 2 0 = 0x00 ∨ m.getD 2 0 = 0x04 → decode m ≠ none) := by
  refine ⟨?_, ?_, ?_, rfl, rfl, ?_, ?_⟩
  · intro b
    constructor
    · intro h
      by_cases h0 : b = 0
      · exact h0
      by_cases h4 : b = 4
      · subst h4; simp [Source.ofByte] at h
      · simp [Source.ofByte, h0, h4] at h
    · intro h; subst h; rfl
  · intro b
    constructor
    · intro h
      by_cases h0 : b = 0
      · subst h0; simp [Source.ofByte] at h
      by_cases h4 : b = 4
      · exact h4
      · simp [Source.ofByte, h0, h4] at h
    · intro h; subst h; rfl
  · intro b h0 h4
    simp [Source.ofByte, h0, h4]
  · intro s; cases s <;> rfl
  · intro m hsrc hnone
    cases hsf : splitFrame m with
    | none =>
      unfold decode at hnone
      rw [hsf] at hnone
      simp at hnone
    | some t =>
      obtain ⟨l, p, c1, c2⟩ := t
      have hm := splitFrame_eq_some hsf
      subst hm
      by_cases hck : calc_checksum l p = neg_as_u16 (i16_of_be c1 c2)
      · match p with
        | [] =>
          rw [decode_short l [] c1 c2 hck (by simp)] at hnone
          simp at hnone
        | [a] =>
          rw [decode_short l [a] c1 c2 hck (by simp)] at hnone
          simp at hnone
        | [a, b] =>
          rw [decode_short l [a, b] c1 c2 hck (by simp)] at hnone
          simp at hnone
        | op :: src :: st :: data =>
          have hgd : (l :: ((op :: src :: st :: data) ++ [c1, c2])).getD 2 0 = src := rfl
          rw [hgd] at hsrc
          rcases hsrc with h | h <;> subst h
          · rw [decode_ok_intro l op 0x00 st data c1 c2 Source.Scanner rfl hck] at hnone
            simp at hnone
          · rw [decode_ok_intro l op 0x04 st data c1 c2 Source.Host rfl hck] at hnone
            simp at hnone
      · rw [decode_mismatch l p c1 c2 hck] at hnone
        simp at hnone

/-- Witness for C5: byte 0x07 has no Source; a concrete frame with source
byte 0x00 decodes without reaching the abort. -/
theorem source_mapping_no_abort_witness :
    Source.ofByte 0x07 = none ∧ decode [4, 208, 0, 0, 255, 44] ≠ none :=
  ⟨source_mapping_no_abort.2.2.1 0x07 (by decide) (by decide),
   source_mapping_no_abort.2.2.2.2.2.2 [4, 208, 0, 0, 255, 44] (Or.inl rfl)⟩

/-- C8: for every accepted message the decoded status is exactly the status
byte (offset 3) masked with 0b0000_1011: the three named bits Retransmit
(bit 0), Continuation (bit 1) and ChangeType (bit 3) are preserved and all
other bits are false. -/
theorem status_truncation (m : List Nat) (fr : RawMessage)
    (hok : decode m = some (Except.ok fr)) :
    fr.status = m.getD 3 0 &&& 0b1011 ∧
    fr.status.testBit 0 = (m.getD 3 0).testBit 0 ∧
    fr.status.testBit 1 = (m.getD 3 0).testBit 1 ∧
    fr.status.testBit 3 = (m.getD 3 0).testBit 3 ∧
    (∀ j : Nat, j ≠ 0 → j ≠ 1 → j ≠ 3 → fr.status.testBit j = false) := by
  obtain ⟨l, op, src, st, data, c1, c2, s, hm, hsrc, hck, hfr⟩ := decode_ok_elim hok
  subst hm
  subst hfr
  have hgd : (l :: ((op :: src :: st :: data) ++ [c1, c2])).getD 3 0 = st := rfl
  rw [hgd]
  have hstat : Status.fromBitsTruncate st = st &&& 11 := rfl
  refine ⟨rfl, ?_, ?_, ?_, ?_⟩
  · show (Status.fromBitsTruncate st).testBit 0 = st.testBit 0
    rw [hstat, Nat.testBit_land]
    simp [show Nat.testBit 11 0 = true from rfl]
  · show (Status.fromBitsTruncate st).testBit 1 = st.testBit 1
    rw [hstat, Nat.testBit_land]
    simp [show Nat.testBit 11 1 = true from rfl]
  · show (Status.fromBitsTruncate st).testBit 3 = st.testBit 3
    rw [hstat, Nat.testBit_land]
    simp [show Nat.testBit 11 3 = true from rfl]
  · intro j hj0 hj1 hj3
    show (Status.fromBitsTruncate st).testBit j = false
    rw [hstat, Nat.testBit_land]
    suffices h11 : Nat.testBit 11 j = false by simp [h11]
    rcases Nat.lt_or_ge j 4 with h4 | h4
    · interval_cases j
      · exact absurd rfl hj0
      · exact absurd rfl hj1
      · rfl
      · exact absurd rfl hj3
    · exact Nat.testBit_eq_false_of_lt
        (lt_of_lt_of_le (by norm_num) (Nat.pow_le_pow_right (by norm_num) h4))

/-- Witness for C8: a frame whose status byte is 0x1f (bits 0 to 4 set)
decodes with status 0b1011 = 11. -/
theorem status_truncation_witness :
    RawMessage.status
        { length := 4, opcode := OpCode.Ack, source := Source.Scanner,
          status := 11, data := [] } =
      [4, 208, 0, 31, 255, 13].getD 3 0 &&& 0b1011 :=
  (status_truncation [4, 208, 0, 31, 255, 13]
    { length := 4, opcode := OpCode.Ack, source := Source.Scanner,
      status := 11, data := [] } (by decide)).1

/-- C9: the claim says the byte-to-ContentType mapping is partial over
exactly the raw constants listed in the `ContentType` enumeration.  The code
contradicts its own declaration at `Matrix2of5`: the enum declares the
discriminant 0x39, but `try_from` rejects 0x39 and instead maps 0x71 to
`Matrix2of5`.  Every other variant round-trips through its declared
constant, and undocumented bytes (0x33, 0x41) are rejected. -/
theorem contentType_matrix2of5_inconsistent :
    ContentType.code ContentType.Matrix2of5 = 0x39 ∧
    ContentType.tryFrom 0x39 = Except.error "Unknown content type" ∧
    ContentType.tryFrom 0x71 = Except.ok ContentType.Matrix2of5 ∧
    ContentType.tryFrom 0x33 = Except.error "Unknown content type" ∧
    ContentType.tryFrom 0x41 = Except.error "Unknown content type" ∧
    ContentType.tryFrom 0x01 = Except.ok ContentType.Code39 ∧
    ContentType.tryFrom 0xe1 = Except.ok ContentType.RfidURI ∧
    (∀ ct : ContentType,
      ct = ContentType.Matrix2of5 ∨
        ContentType.tryFrom (ContentType.code ct) = Except.ok ct) := by
  refine ⟨rfl, rfl, rfl, rfl, rfl, rfl, rfl, ?_⟩
  decide

/-- C2: `decode` on a splittable buffer fails with InvalidChecksum exactly
when the 16-bit wrapping sum of the length byte and the payload bytes
differs from the wrapping negation of the big-endian 16-bit value formed by
the two trailing bytes; this holds for payloads of any length (in
particular lengths 0 to 2, where no field is ever interpreted). -/
theorem decode_checksum_iff (l : Nat) (p : List Nat) (c1 c2 : Nat)
    (h1 : c1 < 256) (h2 : c2 < 256) :
    decode (l :: (p ++ [c1, c2])) = some (Except.error DecodeError.InvalidChecksum) ↔
      (l + p.sum) % 65536 ≠ (65536 - (c1 * 256 + c2)) % 65536 := by
  have hrecv : neg_as_u16 (i16_of_be c1 c2) = (65536 - (c1 * 256 + c2)) % 65536 :=
    neg_as_u16_i16_of_be c1 c2 h1 h2
  have hcalc : calc_checksum l p = (l + p.sum) % 65536 := rfl
  constructor
  · intro hd heq
    have hck : calc_checksum l p = neg_as_u16 (i16_of_be c1 c2) := by
      rw [hcalc, hrecv]
      exact heq
    match p with
    | [] =>
      rw [decode_short l [] c1 c2 hck (by simp)] at hd
      simp at hd
    | [a] =>
      rw [decode_short l [a] c1 c2 hck (by simp)] at hd
      simp at hd
    | [a, b] =>
      rw [decode_short l [a, b] c1 c2 hck (by simp)] at hd
      simp at hd
    | op :: src :: st :: data =>
      cases hs : Source.ofByte src with
      | none =>
        rw [decode_none_src l op src st data c1 c2 hck hs] at hd
        simp at hd
      | some s =>
        rw [decode_ok_intro l op src st data c1 c2 s hs hck] at hd
        simp at hd
  · intro hne
    apply decode_mismatch
    rw [hcalc, hrecv]
    exact hne

/-- Witness for C2: the four-byte buffer [0x00, 0x01, 0xff, 0xfe] has
expected checksum 1 and received checksum 2, so decode rejects it with
InvalidChecksum. -/
theorem decode_checksum_iff_witness :
    decode [0, 1, 255, 254] = some (Except.error DecodeError.InvalidChecksum) :=
  (decode_checksum_iff 0 [1] 255 254 (by decide) (by decide)).mpr (by decide)

/-- C3 counterexample: the three-byte buffer [0x01, 0x00, 0x00] is shorter
than the minimum of 4 the claim states, yet decode fails with
InvalidChecksum, not InvalidMessageLength. -/
theorem decode_three_bytes_invalid_checksum :
    decode [1, 0, 0] = some (Except.error DecodeError.InvalidChecksum) ∧
      DecodeError.InvalidChecksum ≠ DecodeError.InvalidMessageLength := by
  decide

/-- C3 (amended): the structural requirement is len(message) >= 3 (length
byte plus two checksum bytes); every buffer shorter than 3 bytes fails with
InvalidMessageLength and never panics, and no buffer shorter than 6 bytes
ever decodes successfully. -/
theorem decode_length_guard (m : List Nat) :
    (m.length < 3 → decode m = some (Except.error DecodeError.InvalidMessageLength)) ∧
    (m.length < 6 → ∀ fr : RawMessage, decode m ≠ some (Except.ok fr)) := by
  constructor
  · intro h
    rcases m with _ | ⟨a, _ | ⟨b, _ | ⟨c, t⟩⟩⟩
    · rfl
    · rfl
    · rfl
    · simp at h
      omega
  · intro h fr hok
    obtain ⟨l, op, src, st, data, c1, c2, s, hm, -, -, -⟩ := decode_ok_elim hok
    subst hm
    simp at h
    omega

/-- Witness for C3 at the two-byte buffer [5, 5]. -/
theorem decode_length_guard_witness :
    decode [5, 5] = some (Except.error DecodeError.InvalidMessageLength) :=
  (decode_length_guard [5, 5]).1 (by decide)

/-- C1 counterexample: the empty field sequence has length ≤ 253, but
decode(wrap([])) fails with InvalidMessageLength instead of succeeding. -/
theorem decode_wrap_nil_fails :
    decode (wrap []) = some (Except.error DecodeError.InvalidMessageLength) := by
  decide

/-- C1 (amended): for every field sequence f = op :: src :: st :: rest with
3 ≤ len(f) ≤ 253 whose source byte is 0x00 or 0x04, decode(wrap(f))
succeeds, and the frame's opcode, source, status and data are the semantic
decodings of the first three bytes (OpCode table, Source table, bit-flag
truncation) and the remaining bytes. -/
theorem decode_wrap_roundtrip (op src st : Nat) (rest : List Nat)
    (hlen : rest.length ≤ 250) (hsrc : src = 0x00 ∨ src = 0x04) :
    ∃ s : Source, Source.ofByte src = some s ∧
      decode (wrap (op :: src :: st :: rest)) =
        some (Except.ok
          { length := rest.length + 4
            opcode := OpCode.ofByte op
            source := s
            status := Status.fromBitsTruncate st
            data := rest }) := by
  rcases hsrc with h | h <;> subst h
  · exact ⟨Source.Scanner, rfl, decode_wrap op 0x00 st rest Source.Scanner rfl hlen⟩
  · exact ⟨Source.Host, rfl, decode_wrap op 0x04 st rest Source.Host rfl hlen⟩

/-- Witness for C1 at the acknowledgment fields [0xd0, 0x00, 0x00]. -/
theorem decode_wrap_roundtrip_witness :
    ∃ s : Source, Source.ofByte 0x00 = some s ∧
      decode (wrap [0xd0, 0x00, 0x00]) =
        some (Except.ok
          { length := 4
            opcode := OpCode.ofByte 0xd0
            source := s
            status := Status.fromBitsTruncate 0x00
            data := [] }) :=
  decode_wrap_roundtrip 0xd0 0x00 0x00 [] (by decide) (Or.inl rfl)

/-- C6 counterexample: decode accepts a buffer whose length byte is 0x00
although its payload has 3 bytes, so the returned frame violates
length = 1 + len(payload). -/
theorem decode_length_byte_unchecked :
    decode [0, 208, 0, 0, 255, 48] =
      some (Except.ok
        { length := 0
          opcode := OpCode.Ack
          source := Source.Scanner
          status := 0
          data := [] }) ∧
    (0 : Nat) ≠ 1 + 3 := by
  decide

/-- C6 (amended): decode stores the wire length byte without checking it
against the payload size, so accepted frames can violate
length = 1 + len(payload); the invariant does hold for every frame produced
by `wrap` from at most 253 fields (with a valid source byte). -/
theorem wrap_length_invariant (op src st : Nat) (rest : List Nat)
    (hlen : rest.length ≤ 250) (hsrc : src = 0x00 ∨ src = 0x04) :
    ∃ fr : RawMessage,
      decode (wrap (op :: src :: st :: rest)) = some (Except.ok fr) ∧
        fr.length = 1 + (3 + fr.data.length) := by
  rcases hsrc with h | h <;> subst h
  · refine ⟨_, decode_wrap op 0x00 st rest Source.Scanner rfl hlen, ?_⟩
    show rest.length + 4 = 1 + (3 + rest.length)
    omega
  · refine ⟨_, decode_wrap op 0x04 st rest Source.Host rfl hlen, ?_⟩
    show rest.length + 4 = 1 + (3 + rest.length)
    omega

/-- Witness for C6 at the fields [0xd0, 0x00, 0x00]. -/
theorem wrap_length_invariant_witness :
    ∃ fr : RawMessage,
      decode (wrap [0xd0, 0x00, 0x00]) = some (Except.ok fr) ∧
        fr.length = 1 + (3 + fr.data.length) :=
  wrap_length_invariant 0xd0 0x00 0x00 [] (by decide) (Or.inl rfl)

/-- C10: for every field vector, wrap emits exactly len+3 bytes: the size
byte (len+1 reduced modulo 256), the fields unchanged, then the two
big-endian bytes of the negated 16-bit checksum; for 255 or more fields the
size byte silently wraps, so it no longer equals 1 + the field count. -/
theorem wrap_structure (data : List Nat) :
    wrap data = ((data.length + 1) % 256) :: data ++
      [(65536 - ((data.length + 1) % 256 + data.sum) % 65536) % 65536 / 256,
       (65536 - ((data.length + 1) % 256 + data.sum) % 65536) % 65536 % 256] ∧
    (wrap data).length = data.length + 3 ∧
    (255 ≤ data.length → (wrap data).headD 0 ≠ data.length + 1) := by
  have h1 := wrap_eq data
  have hcalc : calc_checksum ((data.length + 1) % 256) data =
      ((data.length + 1) % 256 + data.sum) % 65536 := rfl
  refine ⟨by rw [h1, hcalc], ?_, ?_⟩
  · rw [h1]
    simp
  · intro h255
    rw [h1]
    show ((data.length + 1) % 256) ≠ data.length + 1
    omega

/-- Witness for C10 at 255 zero fields: the size byte wraps to 0. -/
theorem wrap_structure_witness :
    (wrap (List.replicate 255 0)).headD 0 ≠ (List.replicate 255 0).length + 1 :=
  (wrap_structure (List.replicate 255 0)).2.2 (by rw [List.length_replicate])

/-- C4: flipping any single bit (xor with 2^k, k < 8) of any byte of a
well-formed frame except the two trailing checksum bytes — i.e. of the
length byte or any payload byte — makes decode fail with InvalidChecksum. -/
theorem decode_bitflip_checksum (m : List Nat) (hb : ∀ b ∈ m, b < 256)
    (i k : Nat) (hi : i + 2 < m.length) (hk : k < 8) (fr : RawMessage)
    (hok : decode m = some (Except.ok fr)) :
    decode (m.set i (m.getD i 0 ^^^ 2 ^ k)) =
      some (Except.error DecodeError.InvalidChecksum) := by
  obtain ⟨l, op, src, st, data, c1, c2, s, hm, hsrc, hck, -⟩ := decode_ok_elim hok
  subst hm
  have hiu : i < (l :: op :: src :: st :: data).length := by
    have hL : (l :: ((op :: src :: st :: data) ++ [c1, c2])).length
        = (l :: op :: src :: st :: data).length + 2 := by simp
    omega
  have hgetd : (l :: ((op :: src :: st :: data) ++ [c1, c2])).getD i 0
      = (l :: op :: src :: st :: data).getD i 0 :=
    List.getD_append _ _ _ _ hiu
  have hset : (l :: ((op :: src :: st :: data) ++ [c1, c2])).set i
        ((l :: op :: src :: st :: data).getD i 0 ^^^ 2 ^ k)
      = (l :: op :: src :: st :: data).set i
          ((l :: op :: src :: st :: data).getD i 0 ^^^ 2 ^ k) ++ [c1, c2] :=
    set_append_left _ _ _ _ hiu
  rw [hgetd, hset]
  -- bounds on the original and the flipped byte
  have hb0 : (l :: op :: src :: st :: data).getD i 0 < 256 := by
    have hmem : (l :: op :: src :: st :: data).getD i 0
        ∈ (l :: op :: src :: st :: data) := by
      rw [List.getD_eq_getElem _ _ hiu]
      exact List.getElem_mem _
    exact hb _ (List.mem_append_left [c1, c2] hmem)
  have h2k : (2:Nat) ^ k < 256 := by
    calc (2:Nat) ^ k ≤ 2 ^ 7 := Nat.pow_le_pow_right (by norm_num) (by omega)
      _ < 256 := by norm_num
  have hxlt : (l :: op :: src :: st :: data).getD i 0 ^^^ 2 ^ k < 65536 := by
    have hb16 : (l :: op :: src :: st :: data).getD i 0 < 2 ^ 16 :=
      lt_of_lt_of_le hb0 (by norm_num)
    have hk16 : (2:Nat) ^ k < 2 ^ 16 := lt_of_lt_of_le h2k (by norm_num)
    exact Nat.bitwise_lt hb16 hk16
  have hxne : (l :: op :: src :: st :: data).getD i 0 ^^^ 2 ^ k
      ≠ (l :: op :: src :: st :: data).getD i 0 := by
    intro he
    have h2 : (l :: op :: src :: st :: data).getD i 0 ^^^ 2 ^ k
        = (l :: op :: src :: st :: data).getD i 0 ^^^ 0 := by
      rw [Nat.xor_zero]
      exact he
    have h3 := Nat.xor_right_inj.mp h2
    have := Nat.two_pow_pos k
    omega
  -- the modified prefix is still nonempty; decompose it
  cases hu' : (l :: op :: src :: st :: data).set i
      ((l :: op :: src :: st :: data).getD i 0 ^^^ 2 ^ k) with
  | nil =>
    have := congrArg List.length hu'
    simp at this
  | cons l' p' =>
    show decode (l' :: (p' ++ [c1, c2])) = some (Except.error DecodeError.InvalidChecksum)
    apply decode_mismatch
    intro heq
    -- sums of the original and the modified prefix
    have hss := sum_set_add (l :: op :: src :: st :: data) i
      ((l :: op :: src :: st :: data).getD i 0 ^^^ 2 ^ k) hiu
    rw [hu'] at hss
    have hsum' : (l' :: p').sum = l' + p'.sum := by simp
    have husum : (l :: op :: src :: st :: data).sum
        = l + (op :: src :: st :: data).sum := by simp
    have hckS : (l + (op :: src :: st :: data).sum) % 65536
        = neg_as_u16 (i16_of_be c1 c2) := hck
    have heqS : (l' + p'.sum) % 65536 = neg_as_u16 (i16_of_be c1 c2) := heq
    omega

/-- Witness for C4: flipping bit 0 of the opcode byte of the valid frame
[4, 208, 0, 0, 255, 44] yields InvalidChecksum. -/
theorem decode_bitflip_checksum_witness :
    decode ([4, 208, 0, 0, 255, 44].set 1 ([4, 208, 0, 0, 255, 44].getD 1 0 ^^^ 2 ^ 0)) =
      some (Except.error DecodeError.InvalidChecksum) :=
  decode_bitflip_checksum [4, 208, 0, 0, 255, 44] (by decide) 1 0 (by decide) (by decide)
    { length := 4, opcode := OpCode.Ack, source := Source.Scanner, status := 0, data := [] }
    (by decide)

end Ssi
